import Mathlib

/-!
Verification development for the quantitative horse-race handicapping engine
(src/deployment_package/quantitative_analysis.py) and the backtesting simulator
(src/deployment_package/backtester.py).

The Python modules are shallowly embedded below.  Numbers are modelled by the
rationals: every arithmetic operation the engine performs (sums, means,
divisions, comparisons, clamping) is exact over the rationals, and the binary
representation of Python floats is not modelled.  Two systematic deviations are
documented where they occur:
* population standard deviations are represented by their squares (the
  population variance); every use the code makes of a standard deviation is a
  comparison against a nonnegative constant, and sqrt is strictly monotone on
  the nonnegative rationals, so each comparison std < c is modelled as
  var < c^2;
* the human-readable note strings that interpolate numeric values format the
  numbers with the ToString instance of the rationals instead of the Python
  float formatter; the two no-data notes that carry logical meaning are exact
  literals.
-/

/-! ## String helpers (Python substring and case operators) -/

/-- Boolean check that the first character list is an initial segment of the
second (used to implement the Python `in` substring operator). -/
def beginsWith : List Char → List Char → Bool
  | [], _ => true
  | _ :: _, [] => false
  | c :: cs, d :: ds => c == d && beginsWith cs ds

/-- Python `needle in hay` on strings: some tail of `hay` starts with
`needle`. -/
def containsSub (needle hay : String) : Bool :=
  hay.data.tails.any (beginsWith needle.data)

/-- Python `str.upper()` (ASCII uppercasing; the Korean codes are unaffected
exactly as in Python). -/
def strUpper (s : String) : String := ⟨s.data.map Char.toUpper⟩

/-! ## Rounding (Python `round`, which rounds half to even) -/

/-- Python `round(x)` for a rational: round half to even. -/
def roundHalfEven (x : ℚ) : ℤ :=
  if x - ⌊x⌋ = 1 / 2 then (if ⌊x⌋ % 2 = 0 then ⌊x⌋ else ⌊x⌋ + 1) else round x

/-- Python `round(x, 1)`. -/
def round1 (x : ℚ) : ℚ := (roundHalfEven (10 * x) : ℚ) / 10

/-- Python `round(x, 3)`. -/
def round3 (x : ℚ) : ℚ := (roundHalfEven (1000 * x) : ℚ) / 1000

/-! ## Configuration (config.py constants and the QuantitativeAnalyzer kwargs) -/

/-- The tunable constants of `QuantitativeAnalyzer.__init__`.  The position
weight table is an ordered association list because the source iterates
`position_weights.items()` in insertion order and stops at the first match. -/
structure AnalyzerConfig where
  position_weights : List (String × ℚ)
  w_bonus : ℚ
  weight_threshold : ℚ
  train_min : Nat
  train_strong_bonus : ℚ
  train_base : ℚ
  recent_n : Nat
deriving DecidableEq

/-- The defaults from config.py. -/
def defaultConfig : AnalyzerConfig :=
  { position_weights :=
      [("4M", 50), ("3M", 40), ("2M", 30), ("F", 20), ("M", 10), ("C", 5), ("W", 0)]
    w_bonus := 30
    weight_threshold := 5
    train_min := 14
    train_strong_bonus := 40
    train_base := 2
    recent_n := 5 }

/-! ## Data model -/

/-- One past race of a horse, as consumed by the scorers.  A zero sectional
time or weight models a missing value, exactly as the source treats falsy
`race.get(...)` results. -/
structure RaceEntry where
  rcDate : String
  s1f : ℚ
  g1f : ℚ
  ord : ℤ
  pos : String
  corner : String
  weight : ℚ
  rcTime : String
deriving DecidableEq

/-- One training session (`type` and `trGbn` are the two fields the source
scans for the strong-training marker). -/
structure TrainingRec where
  type : String
  trGbn : String
deriving DecidableEq

/-- One steward report: date plus free text. -/
structure StewardReport where
  date : String
  report : String
deriving DecidableEq

/-! ## 1. Speed score (`calc_speed_score`) -/

/-- Mean of a rational list, 0 when empty (`np.mean(vals) if vals else 0`). -/
def listMean (l : List ℚ) : ℚ := if l = [] then 0 else l.sum / l.length

/-- Population variance, 0 unless at least two samples.  The source stores
`np.std(vals) if len(vals) > 1 else 0`; this is the square of that value. -/
def listVar (l : List ℚ) : ℚ :=
  if 1 < l.length then (l.map (fun x => (x - listMean l) ^ 2)).sum / l.length else 0

/-- The early-sectional samples of the scoring window:
`[float(r.get("s1f", 0)) for r in recent if r.get("s1f")]`. -/
def s1fValsOf (cfg : AnalyzerConfig) (hist : List RaceEntry) : List ℚ :=
  ((hist.take cfg.recent_n).filter (fun r => decide (r.s1f ≠ 0))).map (fun r => r.s1f)

/-- The late-sectional samples of the scoring window. -/
def g1fValsOf (cfg : AnalyzerConfig) (hist : List RaceEntry) : List ℚ :=
  ((hist.take cfg.recent_n).filter (fun r => decide (r.g1f ≠ 0))).map (fun r => r.g1f)

/-- Endurance-vector classification from the two sectional means. -/
def g1fVectorOf (s1fAvg g1fAvg : ℚ) : String :=
  if 0 < s1fAvg ∧ 0 < g1fAvg then
    if g1fAvg / s1fAvg ≤ 1.02 then "Strong"
    else if g1fAvg / s1fAvg ≤ 1.08 then "Maintaining"
    else "Fading"
  else "N/A"

/-- Digits-only char list to a natural number. -/
def digitsToNat (cs : List Char) : Nat := cs.foldl (fun a c => 10 * a + (c.toNat - 48)) 0

/-- Split a char list at every occurrence of `sep` (Python `str.split`). -/
def splitOnChar (sep : Char) : List Char → List (List Char)
  | [] => [[]]
  | c :: cs =>
    let r := splitOnChar sep cs
    if c == sep then [] :: r
    else
      match r with
      | [] => [[c]]
      | h :: t => (c :: h) :: t

/-- Python `float(s)` on a string made only of digits and at most one dot
(which is all that survives the cleaning regex); `none` models the raised
`ValueError`. -/
def parseDec (cs : List Char) : Option ℚ :=
  match splitOnChar '.' cs with
  | [a] => if a = [] then none else some (digitsToNat a)
  | [a, b] =>
    if a = [] ∧ b = [] then none
    else some ((digitsToNat a : ℚ) + (digitsToNat b : ℚ) / (10 : ℚ) ^ b.length)
  | _ => none

/-- The rcTime fallback parser: strip every character that is not a digit,
dot or colon, then read either `mm:ss.s` (exactly one colon) or a plain
decimal; only strictly positive values are kept. -/
def parseRcTime (s : String) : Option ℚ :=
  let clean := s.data.filter (fun c => c.isDigit || c == '.' || c == ':')
  if clean.contains ':' then
    match splitOnChar ':' clean with
    | [p0, p1] =>
      match parseDec p0, parseDec p1 with
      | some a, some b => if 0 < a * 60 + b then some (a * 60 + b) else none
      | _, _ => none
    | _ => none
  else
    match parseDec clean with
    | some v => if 0 < v then some v else none
    | none => none

/-- Result record of `calc_speed_score`.  `s1f_var`/`g1f_var` hold the squares
of the standard deviations the source stores (see the file header). -/
structure SpeedResult where
  s1f_avg : ℚ
  s1f_var : ℚ
  g1f_avg : ℚ
  g1f_var : ℚ
  g1f_vector : String
  speed_score : ℚ
deriving DecidableEq

/-- `calc_speed_score`: sectional scoring with the total-race-time fallback.
The consistency comparisons `std < 0.3` are modelled as `var < 0.09`. -/
def calcSpeedScore (cfg : AnalyzerConfig) (hist : List RaceEntry) : SpeedResult :=
  if hist = [] then ⟨0, 0, 0, 0, "N/A", 0⟩
  else
    let recent := hist.take cfg.recent_n
    let s1fVals := s1fValsOf cfg hist
    let g1fVals := g1fValsOf cfg hist
    let s1fAvg := listMean s1fVals
    let s1fVar := listVar s1fVals
    let g1fAvg := listMean g1fVals
    let g1fVar := listVar g1fVals
    let vector := g1fVectorOf s1fAvg g1fAvg
    if s1fAvg = 0 ∧ g1fAvg = 0 then
      let rcTimes := recent.filterMap (fun r => parseRcTime r.rcTime)
      let score := if rcTimes = [] then 0 else max 0 ((80 - listMean rcTimes) / 20 * 100)
      let vec := if rcTimes = [] then vector else "기록기반"
      ⟨round3 s1fAvg, s1fVar, round3 g1fAvg, g1fVar, vec, round1 (min score 100)⟩
    else
      let base1 := if 0 < s1fAvg then max 0 ((14 - s1fAvg) / 14 * 50) else 0
      let base2 := if 0 < g1fAvg then max 0 ((14 - g1fAvg) / 14 * 50) else 0
      let vb : ℚ := if vector = "Strong" then 15 else if vector = "Maintaining" then 8 else 0
      let c1 : ℚ := if s1fVar < 9 / 100 ∧ s1fVals ≠ [] then 5 else 0
      let c2 : ℚ := if g1fVar < 9 / 100 ∧ g1fVals ≠ [] then 5 else 0
      let score := base1 + base2 + vb + c1 + c2
      ⟨round3 s1fAvg, s1fVar, round3 g1fAvg, g1fVar, vector, round1 (min score 100)⟩

/-! ## 2. Position score (`calc_position_score`) -/

/-- One per-race breakdown entry of the position scorer. -/
structure PosDetail where
  ord : ℤ
  pos : String
  corner : String
  score : ℚ
deriving DecidableEq

/-- Result record of `calc_position_score`. -/
structure PositionResult where
  position_score : ℚ
  w_bonus_count : Nat
  details : List PosDetail
deriving DecidableEq

/-- Score of one race in the position scorer: placed runs (final position at
most 3) earn the first matching corner weight (insertion order, substring
match), the exact running-position weight, and the wide bonus when either code
contains a W. -/
def positionRaceScore (cfg : AnalyzerConfig) (race : RaceEntry) : ℚ :=
  let pos := strUpper race.pos
  let corner := strUpper race.corner
  if race.ord ≤ 3 then
    let cornerPts := ((cfg.position_weights.find? (fun kv => containsSub kv.1 corner)).map
      (fun kv => kv.2)).getD 0
    let posPts := ((cfg.position_weights.find? (fun kv => kv.1 == pos)).map
      (fun kv => kv.2)).getD 0
    if containsSub "W" pos || containsSub "W" corner then cornerPts + posPts + cfg.w_bonus
    else cornerPts + posPts
  else 0

/-- Whether one race increments the wide-bonus counter. -/
def positionRaceWideHit (race : RaceEntry) : Bool :=
  decide (race.ord ≤ 3) &&
    (containsSub "W" (strUpper race.pos) || containsSub "W" (strUpper race.corner))

/-- `calc_position_score`: fold the scoring window, accumulating the total,
the wide-bonus count and the per-race breakdown. -/
def calcPositionScore (cfg : AnalyzerConfig) (hist : List RaceEntry) : PositionResult :=
  if hist = [] then ⟨0, 0, []⟩
  else
    (hist.take cfg.recent_n).foldl
      (fun acc race =>
        let rs := positionRaceScore cfg race
        ⟨acc.position_score + rs,
         acc.w_bonus_count + (if positionRaceWideHit race then 1 else 0),
         acc.details ++ [⟨race.ord, strUpper race.pos, strUpper race.corner, rs⟩]⟩)
      (⟨0, 0, []⟩ : PositionResult)

/-! ## 3. Weight veto (`check_weight_veto`) -/

/-- Result record of `check_weight_veto`. -/
structure WeightResult where
  veto : Bool
  diff : ℚ
  ideal_weight : ℚ
  note : String
deriving DecidableEq

/-- Numeric rendering used inside note strings (see the file header). -/
def fmtQ (x : ℚ) : String := toString x

/-- `check_weight_veto`: zero current weight short-circuits to a no-data
result; otherwise a non-zero pre-parsed delta is authoritative; otherwise the
most recent positive historical weight is the comparison base; veto triggers
when the absolute delta reaches the threshold. -/
def checkWeightVeto (cfg : AnalyzerConfig) (currentWeight : ℚ) (hist : List RaceEntry)
    (weightDiff : ℚ) : WeightResult :=
  if currentWeight = 0 then ⟨false, 0, 0, "데이터 없음"⟩
  else if weightDiff ≠ 0 then
    let diff := weightDiff
    let isVeto := decide (cfg.weight_threshold ≤ |diff|)
    let note :=
      if isVeto then
        "VETO: 체중 " ++ fmtQ |diff| ++ "kg " ++ (if 0 < diff then "증가" else "감소") ++
          " (임계치 " ++ fmtQ cfg.weight_threshold ++ "kg 초과)"
      else "체중 변동 " ++ fmtQ diff ++ "kg (정상 범위)"
    ⟨isVeto, diff, currentWeight - diff, note⟩
  else
    match hist.find? (fun r => decide (0 < r.weight)) with
    | none => ⟨false, 0, 0, "과거 체중 데이터 없음"⟩
    | some r =>
      let prev := r.weight
      let diff := currentWeight - prev
      let isVeto := decide (cfg.weight_threshold ≤ |diff|)
      let base := "체중 변동 " ++ fmtQ diff ++ "kg (전주 " ++ fmtQ prev ++ "kg)"
      ⟨isVeto, diff, prev, if isVeto then "VETO: " ++ base ++ " - 급변동" else base⟩

/-! ## 4. Training score (`calc_training_score`) -/

/-- Result record of `calc_training_score`. -/
structure TrainingResult where
  training_score : ℚ
  count : Nat
  strong_count : Nat
  detail : String
deriving DecidableEq

/-- `calc_training_score`: per-session base points plus the tiered bonus for
session count and strong-training presence, clamped at 100. -/
def calcTrainingScore (cfg : AnalyzerConfig) (recs : List TrainingRec) : TrainingResult :=
  if recs = [] then ⟨0, 0, 0, "조교 데이터 없음"⟩
  else
    let count := recs.length
    let strong := (recs.filter
      (fun r => containsSub "강" r.type || containsSub "강" r.trGbn)).length
    let base : ℚ := (count : ℚ) * cfg.train_base
    if cfg.train_min ≤ count ∧ 0 < strong then
      ⟨min (base + cfg.train_strong_bonus) 100, count, strong,
       "✅ 충분한 조교 (" ++ toString count ++ "회, 강조교 " ++ toString strong ++ "회) → +"
         ++ fmtQ cfg.train_strong_bonus ++ "점 가산"⟩
    else if cfg.train_min ≤ count then
      ⟨min (base + 15) 100, count, strong,
       "⚠ 조교 횟수 충분(" ++ toString count ++ "회)이나 강조교 없음"⟩
    else if 0 < strong then
      ⟨min (base + 10) 100, count, strong,
       "⚠ 강조교 포함(" ++ toString strong ++ "회)이나 횟수 부족(" ++ toString count ++ "회)"⟩
    else ⟨min base 100, count, strong, "⚠ 조교 부족 (" ++ toString count ++ "회, 강조교 없음)"⟩

/-! ## 5. Interference detection (`calc_interference_bonus`) -/

/-- The interference keyword table with weights, in source order. -/
def interferenceKeywords : List (String × ℚ) :=
  [("꼬리", 3), ("진로", 3), ("불이익", 4), ("밀려", 3), ("부딪", 4), ("협착", 5),
   ("낙마", 5), ("주행방해", 4), ("능력 발휘", 3), ("급감속", 3), ("불리한", 3)]

/-- The penalty keywords that exclude a report (the horse was the disruptor). -/
def penaltyKeywords : List String := ["경고", "벌칙", "제재", "과태료", "기승정지"]

/-- Whether a report text contains any penalty keyword. -/
def penaltyHit (text : String) : Bool := penaltyKeywords.any (fun pk => containsSub pk text)

/-- One per-report breakdown entry of the interference detector. -/
structure InterferenceDetail where
  date : String
  keywords : List String
  g1f : ℚ
  g1f_note : String
  score : ℚ
deriving DecidableEq

/-- Result record of `calc_interference_bonus`. -/
structure InterferenceResult where
  interference_score : ℚ
  interference_count : Nat
  dark_horse : Bool
  dark_horse_reason : String
  details : List InterferenceDetail
deriving DecidableEq

/-- Date normalisation used to match a report to a race:
`report_date.replace("/", "").split("-")[0]`. -/
def cleanDate (d : String) : String := ⟨(d.data.filter (fun c => c ≠ '/')).takeWhile (fun c => c ≠ '-')⟩

/-- Process one steward report: `none` when the report is skipped (no
interference keyword matched, or a penalty keyword is present), otherwise the
detail row the loop appends, with the keyword score plus the tiered
late-sectional bonus capped at 15. -/
def processReport (hist : List RaceEntry) (rpt : StewardReport) : Option InterferenceDetail :=
  let matched := interferenceKeywords.filter (fun kv => containsSub kv.1 rpt.report)
  let kscore : ℚ := (matched.map (fun kv => kv.2)).sum
  if matched ≠ [] ∧ penaltyHit rpt.report = false then
    let g1fAt : ℚ :=
      match hist.find? (fun (race : RaceEntry) => race.rcDate == cleanDate rpt.date) with
      | some race => race.g1f
      | none => 0
    let tiered : ℚ × String :=
      if (0 : ℚ) < g1fAt then
        if g1fAt ≤ 12.5 then (8, "[끝걸음 매우 강함 G1F=" ++ fmtQ g1fAt ++ "]")
        else if g1fAt ≤ 13 then (5, "[끝걸음 강함 G1F=" ++ fmtQ g1fAt ++ "]")
        else if g1fAt ≤ 13.5 then (3, "[끝걸음 양호 G1F=" ++ fmtQ g1fAt ++ "]")
        else (0, "")
      else (0, "")
    some { date := rpt.date, keywords := matched.map (fun kv => kv.1), g1f := g1fAt,
           g1f_note := tiered.2, score := min (kscore + tiered.1) 15 }
  else none

/-- `calc_interference_bonus`: fold the reports, cap the total at 25, and
derive the dark-horse flag (one qualifying report with a live late sectional,
or two qualifying reports). -/
def calcInterferenceBonus (reports : List StewardReport) (hist : List RaceEntry) :
    InterferenceResult :=
  if reports = [] then ⟨0, 0, false, "", []⟩
  else
    let details := reports.filterMap (processReport hist)
    let total : ℚ := (details.map (fun d => d.score)).sum
    let count := details.length
    let strongCount := (details.filter
      (fun d => decide (0 < d.g1f) && decide (d.g1f ≤ 13))).length
    if 1 ≤ strongCount then
      ⟨min total 25, count, true,
       "방해 " ++ toString count ++ "회 + 끝걸음 살아있음 (G1F≤13.0)", details⟩
    else if 2 ≤ count then
      ⟨min total 25, count, true,
       "방해 " ++ toString count ++ "회 — 실력 이상으로 순위 하락 가능성", details⟩
    else ⟨min total 25, count, false, "", details⟩

/-! ## 6. Horse analyzer (`analyze_horse`) -/

/-- The flat analysis record `analyze_horse` returns, with the legacy nested
sub-result blocks. -/
structure HorseAnalysis where
  horse_name : String
  total_score : ℚ
  speed_score : ℚ
  s1f_avg : ℚ
  g1f_avg : ℚ
  g1f_vector : String
  position_score : ℚ
  veto : Bool
  veto_reason : String
  training_score : ℚ
  interference_score : ℚ
  interference_count : Nat
  dark_horse : Bool
  dark_horse_reason : String
  speed : SpeedResult
  position : PositionResult
  weight : WeightResult
  training : TrainingResult
  interference : InterferenceResult
deriving DecidableEq

/-- `analyze_horse`: run the five component scorers and combine them into the
weighted composite score, rounded to one decimal. -/
def analyzeHorse (cfg : AnalyzerConfig) (horseName : String) (hist : List RaceEntry)
    (train : List TrainingRec) (currentWeight : ℚ) (weightDiff : ℚ)
    (reports : List StewardReport) : HorseAnalysis :=
  let speed := calcSpeedScore cfg hist
  let position := calcPositionScore cfg hist
  let weight := checkWeightVeto cfg currentWeight hist weightDiff
  let training := calcTrainingScore cfg train
  let interference := calcInterferenceBonus reports hist
  let total :=
    speed.speed_score * 0.30 + position.position_score * 0.30 +
      training.training_score * 0.25 + (if weight.veto then -10 else 15) * 1 +
      interference.interference_score * 0.15
  { horse_name := horseName
    total_score := round1 total
    speed_score := speed.speed_score
    s1f_avg := speed.s1f_avg
    g1f_avg := speed.g1f_avg
    g1f_vector := speed.g1f_vector
    position_score := position.position_score
    veto := weight.veto
    veto_reason := if weight.veto then weight.note else ""
    training_score := training.training_score
    interference_score := interference.interference_score
    interference_count := interference.interference_count
    dark_horse := interference.dark_horse
    dark_horse_reason := interference.dark_horse_reason
    speed := speed
    position := position
    weight := weight
    training := training
    interference := interference }

/-! ## 7. Ranker (`rank_horses`) -/

/-- The rank field: a 1-based position for non-vetoed horses, or the VETO
sentinel. -/
inductive Rank where
  | pos : Nat → Rank
  | veto : Rank
deriving DecidableEq

/-- An analysis together with the rank the ranker assigned to it. -/
structure RankedHorse where
  horse : HorseAnalysis
  rank : Rank
deriving DecidableEq

/-- Insert one analysis into a descending-sorted list: it goes in front of the
first element whose total score it reaches.  Equal scores keep the existing
element behind the inserted one, which together with `sortByScoreDesc`
processing the original list front to back realises the stability of the
Python `list.sort`. -/
def insertScoreDesc (x : HorseAnalysis) : List HorseAnalysis → List HorseAnalysis
  | [] => [x]
  | y :: ys =>
    if y.total_score ≤ x.total_score then x :: y :: ys else y :: insertScoreDesc x ys

/-- Stable sort by `total_score`, descending — the model of
`valid.sort(key=lambda x: x["total_score"], reverse=True)`. -/
def sortByScoreDesc : List HorseAnalysis → List HorseAnalysis
  | [] => []
  | x :: xs => insertScoreDesc x (sortByScoreDesc xs)

/-- Attach ranks n, n+1, ... to a list of analyses. -/
def attachRanks : Nat → List HorseAnalysis → List RankedHorse
  | _, [] => []
  | n, h :: t => ⟨h, Rank.pos n⟩ :: attachRanks (n + 1) t

/-- `rank_horses`: split off the vetoed horses, sort the rest descending by
total score, number them from 1, and append the vetoed horses (in original
order) with the sentinel rank. -/
def rankHorses (analyses : List HorseAnalysis) : List RankedHorse :=
  let valid := analyses.filter (fun a => !a.veto)
  let vetoed := analyses.filter (fun a => a.veto)
  attachRanks 1 (sortByScoreDesc valid) ++ vetoed.map (fun a => ⟨a, Rank.veto⟩)

/-! ## 8. Combination generator (`generate_trio_picks`) -/

/-- One dark-horse detail row of the combination generator. -/
structure DarkHorseInfo where
  hrNo : String
  horse_name : String
  reasons : List String
  total_score : ℚ
  g1f_avg : ℚ
deriving DecidableEq

/-- The record `generate_trio_picks` returns. -/
structure TrioPick where
  axis : List String
  partners : List String
  combinations : List String
  num_bets : Nat
  dark_horses : List DarkHorseInfo
  summary : String
deriving DecidableEq

/-- The sorting key `int(x) if x.isdigit() else 99` used for horse numbers. -/
def numKey (s : String) : Nat :=
  if s.data ≠ [] ∧ s.data.all Char.isDigit then digitsToNat s.data else 99

/-- Stable insertion into an ascending list under a boolean comparison: the
new element goes in front of the first existing element it compares `le`
to (so later insertions land behind earlier equals). -/
def insertLe (le : String → String → Bool) (x : String) : List String → List String
  | [] => [x]
  | y :: ys => if le x y then x :: y :: ys else y :: insertLe le x ys

/-- Stable ascending sort under a boolean comparison (model of the stable
Python `sorted`). -/
def sortLe (le : String → String → Bool) : List String → List String
  | [] => []
  | x :: xs => insertLe le x (sortLe le xs)

/-- Comparison by the numeric key. -/
def numLe (a b : String) : Bool := decide (numKey a ≤ numKey b)

/-- Lexicographic comparison on code points (Python string comparison). -/
def lexLe (a b : String) : Bool := lexLeChars a.data b.data
where
  lexLeChars : List Char → List Char → Bool
    | [], _ => true
    | _ :: _, [] => false
    | c :: cs, d :: ds => if c < d then true else if d < c then false else lexLeChars cs ds

/-- Python set insertion as it is observed through later sorted iteration:
append when absent. -/
def addUnique (l : List String) (x : String) : List String :=
  if l.contains x then l else l ++ [x]

/-- `"-".join(sorted([...], key=...))` for one combination. -/
def comboString (xs : List String) : String := String.intercalate "-" (sortLe numLe xs)

/-- The rank sentinel rendered as the Python `str(...)` of the rank value. -/
def rankStr : Rank → String
  | Rank.pos n => toString n
  | Rank.veto => "VETO"

/-- `get_hr_no`: the entries-table name-to-number map first, then the
fallback.  The analysis records carry no horse-number entry, so the source
fallback `horse.get("hrNo", horse.get("rank", "?"))` resolves to the rank. -/
def getHrNo (hrNoMap : List (String × String)) (h : RankedHorse) : String :=
  let mapped := ((hrNoMap.find? (fun kv => kv.1 == h.horse.horse_name)).map
    (fun kv => kv.2)).getD ""
  if mapped ≠ "" then mapped else rankStr h.rank

/-- The dark-horse reasons the combination generator collects for one ranked
horse: the analyzer flag, the strong-closer heuristic (Strong vector, rank
beyond 3, late sectional at most 13.3) and the closer-profile heuristic (early
sectional above 14, late sectional at most 13).  The horse counts as flagged
exactly when this list is nonempty. -/
def trioDarkReasons (h : RankedHorse) : List String :=
  (if h.horse.dark_horse then [h.horse.dark_horse_reason] else []) ++
  (if h.horse.g1f_vector == "Strong" &&
      (match h.rank with | Rank.pos n => decide (3 < n) | Rank.veto => false) &&
      decide (h.horse.g1f_avg ≤ 13.3) then
    ["끝걸음 Strong (G1F=" ++ fmtQ h.horse.g1f_avg ++ "s) 순위 대비 저평가"]
  else []) ++
  (if decide (14 < h.horse.s1f_avg) && decide (h.horse.g1f_avg ≤ 13) then
    ["추입형 (S1F=" ++ fmtQ h.horse.s1f_avg ++ "->G1F=" ++ fmtQ h.horse.g1f_avg ++ ")"]
  else [])

/-- `generate_trio_picks`: needs at least three horses ranked below the VETO
sentinel, picks the first as axis and the next two as challengers, pools ranks
4-6 and the dark-horse flagged outsiders as partners, and enumerates the
de-duplicated sorted combinations.  The source guards `len(valid) < 3` and
then indexes `valid[0..2]`, which the three-element pattern reproduces. -/
def generateTrioPicks (hrNoMap : List (String × String)) (ranked : List RankedHorse) :
    TrioPick :=
  let valid := ranked.filter (fun h => decide (h.rank ≠ Rank.veto))
  match valid with
  | v0 :: v1 :: v2 :: _ =>
    let axis0 := getHrNo hrNoMap v0
    let chal1 := getHrNo hrNoMap v1
    let chal2 := getHrNo hrNoMap v2
    let challengers := [chal1, chal2]
    let basePartners := ((valid.drop 3).take 3).map (getHrNo hrNoMap)
    let partnersSet0 := basePartners.foldl addUnique []
    let looped := valid.foldl
      (fun (acc : List DarkHorseInfo × List String) h =>
        let reasons := trioDarkReasons h
        if reasons ≠ [] then
          let hrNo := getHrNo hrNoMap h
          (acc.1 ++ [⟨hrNo, h.horse.horse_name, reasons, h.horse.total_score,
                      h.horse.g1f_avg⟩],
           if hrNo ∉ [axis0] ∧ hrNo ∉ challengers then addUnique acc.2 hrNo else acc.2)
        else acc)
      ([], partnersSet0)
    let partners := sortLe numLe looped.2
    let combos0 := challengers.foldl
      (fun acc chal => partners.foldl
        (fun acc2 part => addUnique acc2 (comboString [axis0, chal, part])) acc)
      []
    let combos1 := addUnique combos0 (comboString [axis0, chal1, chal2])
    let finalCombos := sortLe lexLe combos1
    { axis := [axis0]
      partners := challengers ++ partners
      combinations := finalCombos
      num_bets := finalCombos.length
      dark_horses := looped.1
      summary := "축 [" ++ axis0 ++ "] / 도전 [" ++ String.intercalate "," challengers ++
        "] / 복병 [" ++ String.intercalate "," partners ++ "]" }
  | _ =>
    { axis := [], partners := [], combinations := [], num_bets := 0, dark_horses := [],
      summary := "출전마 부족" }

/-! ## 9. Backtester (`Backtester.run`) — dictionary view and per-race strategy

The analysis results travel through the backtester as Python dictionaries.
`analysisDict` transcribes the exact key set of the dictionary literal that
`analyze_horse` returns (and `rankedDict` the extra key the ranker sets), so
that the key lookups of the strategy code can be modelled faithfully — in
particular the lookup of a key the dictionary does not contain. -/

/-- A Python value as far as the backtester inspects one. -/
inductive PyVal where
  | vB : Bool → PyVal
  | vQ : ℚ → PyVal
  | vN : Nat → PyVal
  | vI : ℤ → PyVal
  | vS : String → PyVal
  | vLS : List String → PyVal
  | vL : List PyVal → PyVal
  | vD : List (String × PyVal) → PyVal

/-- Python truthiness of a value. -/
def pyTruthy : PyVal → Bool
  | PyVal.vB b => b
  | PyVal.vQ q => decide (q ≠ 0)
  | PyVal.vN n => decide (n ≠ 0)
  | PyVal.vI i => decide (i ≠ 0)
  | PyVal.vS s => !s.isEmpty
  | PyVal.vLS l => !l.isEmpty
  | PyVal.vL l => !l.isEmpty
  | PyVal.vD l => !l.isEmpty

/-- The nested speed block (`calc_speed_score` return dictionary).  The
`s1f_std`/`g1f_std` slots carry the squared standard deviations stored in the
embedding (see the file header). -/
def speedDict (s : SpeedResult) : List (String × PyVal) :=
  [("s1f_avg", PyVal.vQ s.s1f_avg), ("s1f_std", PyVal.vQ s.s1f_var),
   ("g1f_avg", PyVal.vQ s.g1f_avg), ("g1f_std", PyVal.vQ s.g1f_var),
   ("g1f_vector", PyVal.vS s.g1f_vector), ("speed_score", PyVal.vQ s.speed_score)]

/-- One row of the position-score breakdown as a dictionary. -/
def posDetailDict (d : PosDetail) : List (String × PyVal) :=
  [("ord", PyVal.vI d.ord), ("pos", PyVal.vS d.pos), ("corner", PyVal.vS d.corner),
   ("score", PyVal.vQ d.score)]

/-- The nested position block. -/
def positionDict (p : PositionResult) : List (String × PyVal) :=
  [("position_score", PyVal.vQ p.position_score), ("w_bonus_count", PyVal.vN p.w_bonus_count),
   ("details", PyVal.vL (p.details.map (fun d => PyVal.vD (posDetailDict d))))]

/-- The nested weight block. -/
def weightDict (w : WeightResult) : List (String × PyVal) :=
  [("veto", PyVal.vB w.veto), ("diff", PyVal.vQ w.diff),
   ("ideal_weight", PyVal.vQ w.ideal_weight), ("note", PyVal.vS w.note)]

/-- The nested training block. -/
def trainingDict (t : TrainingResult) : List (String × PyVal) :=
  [("training_score", PyVal.vQ t.training_score), ("count", PyVal.vN t.count),
   ("strong_count", PyVal.vN t.strong_count), ("detail", PyVal.vS t.detail)]

/-- One row of the interference breakdown as a dictionary. -/
def interfDetailDict (d : InterferenceDetail) : List (String × PyVal) :=
  [("date", PyVal.vS d.date), ("keywords", PyVal.vLS d.keywords), ("g1f", PyVal.vQ d.g1f),
   ("g1f_note", PyVal.vS d.g1f_note), ("score", PyVal.vQ d.score)]

/-- The nested interference block. -/
def interferenceDict (i : InterferenceResult) : List (String × PyVal) :=
  [("interference_score", PyVal.vQ i.interference_score),
   ("interference_count", PyVal.vN i.interference_count),
   ("dark_horse", PyVal.vB i.dark_horse),
   ("dark_horse_reason", PyVal.vS i.dark_horse_reason),
   ("details", PyVal.vL (i.details.map (fun d => PyVal.vD (interfDetailDict d))))]

/-- The dictionary `analyze_horse` returns, key for key. -/
def analysisDict (a : HorseAnalysis) : List (String × PyVal) :=
  [("horse_name", PyVal.vS a.horse_name),
   ("total_score", PyVal.vQ a.total_score),
   ("speed_score", PyVal.vQ a.speed_score),
   ("s1f_avg", PyVal.vQ a.s1f_avg),
   ("g1f_avg", PyVal.vQ a.g1f_avg),
   ("g1f_vector", PyVal.vS a.g1f_vector),
   ("position_score", PyVal.vQ a.position_score),
   ("veto", PyVal.vB a.veto),
   ("veto_reason", PyVal.vS a.veto_reason),
   ("training_score", PyVal.vQ a.training_score),
   ("interference_score", PyVal.vQ a.interference_score),
   ("interference_count", PyVal.vN a.interference_count),
   ("dark_horse", PyVal.vB a.dark_horse),
   ("dark_horse_reason", PyVal.vS a.dark_horse_reason),
   ("speed", PyVal.vD (speedDict a.speed)),
   ("position", PyVal.vD (positionDict a.position)),
   ("weight", PyVal.vD (weightDict a.weight)),
   ("training", PyVal.vD (trainingDict a.training)),
   ("interference", PyVal.vD (interferenceDict a.interference))]

/-- The dictionary after the ranker also set the `rank` key. -/
def rankedDict (h : RankedHorse) : List (String × PyVal) :=
  analysisDict h.horse ++
    [("rank", match h.rank with | Rank.pos n => PyVal.vN n | Rank.veto => PyVal.vS "VETO")]

/-- Python `d.get(key, default)` restricted to a boolean default, as the
strategy code uses it. -/
def dictGetBool (d : List (String × PyVal)) (key : String) (dflt : Bool) : Bool :=
  match (d.find? (fun kv => kv.1 == key)).map (fun kv => kv.2) with
  | some v => pyTruthy v
  | none => dflt

/-- The per-race pick of the backtester strategy. -/
structure Selection where
  axis : RankedHorse
  challengers : List RankedHorse
  dark_horses : List RankedHorse
deriving DecidableEq

/-- The strategy block of `Backtester.run`: axis is the ranking head;
dark-horse candidates are the remaining entries whose `is_dark_horse`
dictionary entry is truthy, capped at three; challengers are the first two of
the rest; missing dark-horse slots are refilled from the rest.  Python
membership tests compare dictionaries by value, which coincides with equality
of the embedded records because the dictionary encoding is injective.  `none`
models the index error an empty ranking would raise. -/
def selectStrategy (ranked : List RankedHorse) : Option Selection :=
  match ranked with
  | [] => none
  | axis :: others =>
    let darkCands := others.filter (fun h => dictGetBool (rankedDict h) "is_dark_horse" false)
    let dark0 := darkCands.take 3
    let remaining := others.filter (fun h => decide (h ∉ dark0))
    let challengers := remaining.take 2
    let darkFinal :=
      if dark0.length < 3 then
        dark0 ++ (remaining.filter (fun h => decide (h ∉ challengers))).take (3 - dark0.length)
      else dark0
    some ⟨axis, challengers, darkFinal⟩

/-- First horse name carrying a given finish rank in the results table
(`next((n for n, d in actual_ranks.items() if d["rank"] == k), None)`). -/
def findRankName (ranks : List (String × ℤ)) (k : ℤ) : Option String :=
  (ranks.find? (fun nd => nd.2 == k)).map (fun nd => nd.1)

/-- The quinella and trio hit flags of `Backtester.run` for one race, from the
axis name, the six picked names and the actual name-to-rank table. -/
def quiTrioHits (axisName : String) (picks : List String) (ranks : List (String × ℤ)) :
    Bool × Bool :=
  let r1 := findRankName ranks 1
  let r2 := findRankName ranks 2
  let r3 := findRankName ranks 3
  let qui :=
    if [r1, r2].contains (some axisName) then
      let partner := if r1 = some axisName then r2 else r1
      match partner with
      | some p => picks.contains p
      | none => false
    else false
  let rankNames := [r1, r2, r3]
  let trio :=
    if rankNames.contains (some axisName) then
      let needed := rankNames.filter (fun n => decide (n ≠ some axisName))
      let inPicks := needed.filter
        (fun n => match n with | some p => picks.contains p | none => false)
      decide (inPicks.length = 2)
    else false
  (qui, trio)

/-! ## Concrete instances used by the verification -/

/-- The speed-score formula as the C6 claim words it (a single +5 consistency
bonus awarded exactly when both standard deviations are below 0.3, total
clamped to [0, 100]), written for comparison against `calcSpeedScore`; the
`std < 0.3` comparisons are modelled on the squares as in the embedding. -/
def speedScoreSingleBonusClaim (cfg : AnalyzerConfig) (hist : List RaceEntry) : ℚ :=
  let s1fAvg := listMean (s1fValsOf cfg hist)
  let g1fAvg := listMean (g1fValsOf cfg hist)
  let base1 := if 0 < s1fAvg then max 0 ((14 - s1fAvg) / 14 * 50) else 0
  let base2 := if 0 < g1fAvg then max 0 ((14 - g1fAvg) / 14 * 50) else 0
  let vector := g1fVectorOf s1fAvg g1fAvg
  let vb : ℚ := if vector = "Strong" then 15 else if vector = "Maintaining" then 8 else 0
  let single : ℚ :=
    if listVar (s1fValsOf cfg hist) < 9 / 100 ∧ listVar (g1fValsOf cfg hist) < 9 / 100 then 5
    else 0
  round1 (min (max (base1 + base2 + vb + single) 0) 100)

/-- Two-race history on which the code and the C6 claim differ: the early
sectionals are perfectly consistent (std 0) while the late sectionals are not
(std 0.5, at or above 0.3). -/
def histC6 : List RaceEntry :=
  [{ rcDate := "", s1f := 12, g1f := 12, ord := 1, pos := "", corner := "",
     weight := 0, rcTime := "" },
   { rcDate := "", s1f := 12, g1f := 13, ord := 2, pos := "", corner := "",
     weight := 0, rcTime := "" }]

/-- A minimal analysis record with the given name, total score and veto flag
(every other field at its missing-data default), used to instantiate the
ranking and selection theorems on concrete inputs. -/
def mkHA (name : String) (score : ℚ) (vetoed : Bool) : HorseAnalysis :=
  { horse_name := name, total_score := score, speed_score := 0, s1f_avg := 0, g1f_avg := 0,
    g1f_vector := "N/A", position_score := 0, veto := vetoed, veto_reason := "",
    training_score := 0, interference_score := 0, interference_count := 0,
    dark_horse := false, dark_horse_reason := "", speed := ⟨0, 0, 0, 0, "N/A", 0⟩,
    position := ⟨0, 0, []⟩, weight := ⟨vetoed, 0, 0, ""⟩, training := ⟨0, 0, 0, ""⟩,
    interference := ⟨0, 0, false, "", []⟩ }

/-- Six distinct analyses with descending scores. -/
def sixAnalyses : List HorseAnalysis :=
  [mkHA "A" 60 false, mkHA "B" 50 false, mkHA "C" 40 false,
   mkHA "D" 30 false, mkHA "E" 20 false, mkHA "F" 10 false]

/-- A three-horse ranking with no dark-horse flags. -/
def threeRanked : List RankedHorse :=
  [⟨mkHA "A" 30 false, Rank.pos 1⟩, ⟨mkHA "B" 20 false, Rank.pos 2⟩,
   ⟨mkHA "C" 10 false, Rank.pos 3⟩]

/-! ## Claim theorems -/

/-- C1: for every horse input, the composite score returned by `analyze_horse`
equals 0.30 times the speed score plus 0.30 times the position score plus 0.25
times the training score plus 0.15 times the interference score, plus 15 if
the horse is not vetoed and minus 10 if it is vetoed, rounded to one decimal
place. -/
theorem analyze_horse_composite_formula (cfg : AnalyzerConfig) (name : String)
    (hist : List RaceEntry) (train : List TrainingRec) (cw wd : ℚ)
    (reports : List StewardReport) :
    (analyzeHorse cfg name hist train cw wd reports).total_score =
      round1 (0.30 * (calcSpeedScore cfg hist).speed_score +
        0.30 * (calcPositionScore cfg hist).position_score +
        0.25 * (calcTrainingScore cfg train).training_score +
        0.15 * (calcInterferenceBonus reports hist).interference_score +
        (if (checkWeightVeto cfg cw hist wd).veto then (-10 : ℚ) else 15)) := by
  simp only [analyzeHorse]
  congr 1
  cases (checkWeightVeto cfg cw hist wd).veto <;> simp <;> ring

/-- C10: when the current weight is zero, `check_weight_veto` returns the
no-data result (veto false, zero delta, no-data note) regardless of the
supplied pre-parsed delta and of the race history. -/
theorem check_weight_veto_zero_current (cfg : AnalyzerConfig) (hist : List RaceEntry)
    (wd : ℚ) :
    checkWeightVeto cfg 0 hist wd =
      { veto := false, diff := 0, ideal_weight := 0, note := "데이터 없음" } := by
  simp [checkWeightVeto]

/-- C3: for a positive threshold, the veto flag of `check_weight_veto` is true
exactly when the absolute value of the returned delta reaches the threshold;
and when no comparison weight is available (zero pre-parsed delta and no
positive historical weight), the result is veto false with zero delta and one
of the two no-data notes. -/
theorem check_weight_veto_threshold_iff (cfg : AnalyzerConfig) (cw wd : ℚ)
    (hist : List RaceEntry) (hT : 0 < cfg.weight_threshold) :
    ((checkWeightVeto cfg cw hist wd).veto = true ↔
      cfg.weight_threshold ≤ |(checkWeightVeto cfg cw hist wd).diff|) ∧
    (wd = 0 → (∀ r ∈ hist, ¬ (0 < r.weight)) →
      (checkWeightVeto cfg cw hist wd).veto = false ∧
      (checkWeightVeto cfg cw hist wd).diff = 0 ∧
      ((checkWeightVeto cfg cw hist wd).note = "데이터 없음" ∨
        (checkWeightVeto cfg cw hist wd).note = "과거 체중 데이터 없음")) := by
  constructor
  · unfold checkWeightVeto
    split_ifs with hcw hwd
    · simp [hT.not_le]
    · simp
    · rcases hf : hist.find? (fun r => decide (0 < r.weight)) with _ | r
      · rw [hf]; simp [hT.not_le]
      · rw [hf]; simp
  · intro hwd hbig
    have hf : hist.find? (fun r => decide (0 < r.weight)) = none := by
      rw [List.find?_eq_none]
      intro r hr
      simpa using hbig r hr
    unfold checkWeightVeto
    split_ifs with hcw hwd2
    · simp
    · exact absurd hwd (by simpa using hwd2)
    · simp [hf]

/-- C8: with fewer than three horses ranked below the VETO sentinel,
`generate_trio_picks` returns the structured insufficient result (empty axis,
partner and combination lists, zero bets); the embedding is a total function,
so no exception path exists. -/
theorem generate_trio_picks_insufficient (m : List (String × String))
    (ranked : List RankedHorse)
    (hlen : (ranked.filter (fun h => decide (h.rank ≠ Rank.veto))).length < 3) :
    generateTrioPicks m ranked =
      { axis := [], partners := [], combinations := [], num_bets := 0, dark_horses := [],
        summary := "출전마 부족" } := by
  unfold generateTrioPicks
  rcases hv : ranked.filter (fun h => decide (h.rank ≠ Rank.veto)) with
    _ | ⟨a, _ | ⟨b, _ | ⟨c, t⟩⟩⟩
  · rw [hv]
  · rw [hv]
  · rw [hv]
  · rw [hv] at hlen
    simp at hlen
    omega

/-- Helper: a report containing a penalty keyword is skipped entirely by the
per-report processing. -/
theorem processReport_penalty_none (hist : List RaceEntry) (rpt : StewardReport)
    (hp : penaltyHit rpt.report = true) : processReport hist rpt = none := by
  unfold processReport
  rw [hp]
  simp

/-- C7: a steward report containing a penalty keyword contributes nothing to
`calc_interference_bonus` — deleting it from the report list leaves the whole
result (score, count, dark-horse flag and reason, breakdown) unchanged, even
when the report also contains interference keywords. -/
theorem interference_excludes_penalty_report (l1 l2 : List StewardReport)
    (rpt : StewardReport) (hist : List RaceEntry) (hp : penaltyHit rpt.report = true) :
    calcInterferenceBonus (l1 ++ rpt :: l2) hist = calcInterferenceBonus (l1 ++ l2) hist := by
  have hskip := processReport_penalty_none hist rpt hp
  have hfm : (l1 ++ rpt :: l2).filterMap (processReport hist) =
      (l1 ++ l2).filterMap (processReport hist) := by
    simp [List.filterMap_append, List.filterMap_cons, hskip]
  by_cases h12 : l1 ++ l2 = []
  · rcases List.append_eq_nil.mp h12 with ⟨ha, hb⟩
    subst ha; subst hb
    unfold calcInterferenceBonus
    simp [hskip, List.filterMap_cons]
  · unfold calcInterferenceBonus
    rw [if_neg (by simp : ¬ l1 ++ rpt :: l2 = []), if_neg h12, hfm]

/-- Helper: inserting into the descending sort is a permutation of consing. -/
theorem insertScoreDesc_perm (x : HorseAnalysis) (l : List HorseAnalysis) :
    (insertScoreDesc x l).Perm (x :: l) := by
  induction l with
  | nil => exact List.Perm.refl _
  | cons y ys ih =>
    unfold insertScoreDesc
    by_cases h : y.total_score ≤ x.total_score
    · rw [if_pos h]
    · rw [if_neg h]
      exact (ih.cons y).trans (List.Perm.swap x y ys)

/-- Helper: the descending sort permutes its input. -/
theorem sortByScoreDesc_perm (l : List HorseAnalysis) : (sortByScoreDesc l).Perm l := by
  induction l with
  | nil => exact List.Perm.refl _
  | cons x xs ih => exact (insertScoreDesc_perm x (sortByScoreDesc xs)).trans (ih.cons x)

/-- Helper: insertion preserves the descending-sorted property. -/
theorem insertScoreDesc_pairwise (x : HorseAnalysis) (l : List HorseAnalysis)
    (h : l.Pairwise (fun a b => b.total_score ≤ a.total_score)) :
    (insertScoreDesc x l).Pairwise (fun a b => b.total_score ≤ a.total_score) := by
  induction l with
  | nil => simp [insertScoreDesc]
  | cons y ys ih =>
    rcases List.pairwise_cons.mp h with ⟨hy, hys⟩
    unfold insertScoreDesc
    by_cases hle : y.total_score ≤ x.total_score
    · rw [if_pos hle]
      refine List.pairwise_cons.mpr ⟨?_, h⟩
      intro z hz
      rcases List.mem_cons.mp hz with rfl | hz2
      · exact hle
      · exact (hy z hz2).trans hle
    · rw [if_neg hle]
      refine List.pairwise_cons.mpr ⟨?_, ih hys⟩
      intro z hz
      have hz3 : z = x ∨ z ∈ ys := by
        simpa using (insertScoreDesc_perm x ys).mem_iff.mp hz
      rcases hz3 with rfl | hz4
      · exact (lt_of_not_le hle).le
      · exact hy z hz4

/-- Helper: the descending sort is sorted. -/
theorem sortByScoreDesc_pairwise (l : List HorseAnalysis) :
    (sortByScoreDesc l).Pairwise (fun a b => b.total_score ≤ a.total_score) := by
  induction l with
  | nil => simp [sortByScoreDesc]
  | cons x xs ih => exact insertScoreDesc_pairwise x (sortByScoreDesc xs) ih

/-- Helper: restricted to one score value, insertion behaves like consing —
the inserted element passes only elements with strictly larger score, so the
relative order of equal scores is untouched. -/
theorem filter_insertScoreDesc (x : HorseAnalysis) (l : List HorseAnalysis) (s : ℚ) :
    (insertScoreDesc x l).filter (fun h => decide (h.total_score = s)) =
      (x :: l).filter (fun h => decide (h.total_score = s)) := by
  induction l with
  | nil => rfl
  | cons y ys ih =>
    unfold insertScoreDesc
    by_cases hle : y.total_score ≤ x.total_score
    · rw [if_pos hle]
    · rw [if_neg hle]
      by_cases hx : x.total_score = s <;> by_cases hy : y.total_score = s
      · exact absurd (le_of_eq (hy.trans hx.symm)) hle
      · simp [List.filter_cons, hx, hy, ih]
      · simp [List.filter_cons, hx, hy, ih]
      · simp [List.filter_cons, hx, hy, ih]

/-- Helper: stability of the descending sort, stated as preservation of every
equal-score fibre. -/
theorem filter_sortByScoreDesc (l : List HorseAnalysis) (s : ℚ) :
    (sortByScoreDesc l).filter (fun h => decide (h.total_score = s)) =
      l.filter (fun h => decide (h.total_score = s)) := by
  induction l with
  | nil => rfl
  | cons x xs ih =>
    calc (insertScoreDesc x (sortByScoreDesc xs)).filter (fun h => decide (h.total_score = s))
        = (x :: sortByScoreDesc xs).filter (fun h => decide (h.total_score = s)) :=
          filter_insertScoreDesc x (sortByScoreDesc xs) s
      _ = (x :: xs).filter (fun h => decide (h.total_score = s)) := by
          simp [List.filter_cons, ih]

/-- Helper: the ranked wrappers project back to the sorted analyses. -/
theorem attachRanks_map_horse (n : Nat) (l : List HorseAnalysis) :
    (attachRanks n l).map (fun h => h.horse) = l := by
  induction l generalizing n with
  | nil => rfl
  | cons h t ih => simp [attachRanks, ih]

/-- Helper: length of the ranked prefix. -/
theorem attachRanks_length (n : Nat) (l : List HorseAnalysis) :
    (attachRanks n l).length = l.length := by
  induction l generalizing n with
  | nil => rfl
  | cons h t ih => simp [attachRanks, ih]

/-- Helper: the assigned ranks are consecutive from the starting index. -/
theorem attachRanks_map_rank (n : Nat) (l : List HorseAnalysis) :
    (attachRanks n l).map (fun h => h.rank) =
      (List.range l.length).map (fun i => Rank.pos (n + i)) := by
  induction l generalizing n with
  | nil => rfl
  | cons h t ih =>
    simp only [attachRanks, List.map_cons, List.length_cons, List.range_succ_eq_map,
      List.map_map, ih]
    refine congrArg₂ _ (by simp) ?_
    apply List.map_congr_left
    intro i _
    simp [Function.comp]
    omega

/-- C2: `rank_horses` partitions the analyses into the non-vetoed and the
vetoed; the first K output entries carry exactly the non-vetoed horses (a
permutation of them) with ranks 1..K in order, sorted descending by total
score, with each equal-score fibre kept in original input order (the stable
tie-break); every vetoed horse is appended after them, in original order, with
the VETO sentinel rank.  Ranks 1..K in list order together with the descending
sort give that rank strictly increases as the total score descends. -/
theorem rank_horses_partition_and_order (as : List HorseAnalysis) :
    let valid := as.filter (fun a => !a.veto)
    let K := valid.length
    let r := rankHorses as
    r.drop K = (as.filter (fun a => a.veto)).map (fun a => ⟨a, Rank.veto⟩) ∧
    ((r.take K).map (fun h => h.horse)).Perm valid ∧
    (r.take K).map (fun h => h.rank) = (List.range K).map (fun i => Rank.pos (1 + i)) ∧
    ((r.take K).map (fun h => h.horse)).Pairwise
      (fun a b => b.total_score ≤ a.total_score) ∧
    ∀ s : ℚ,
      ((r.take K).map (fun h => h.horse)).filter (fun h => decide (h.total_score = s)) =
        valid.filter (fun h => decide (h.total_score = s)) := by
  intro valid K r
  have hlen : (attachRanks 1 (sortByScoreDesc valid)).length = K := by
    rw [attachRanks_length, (sortByScoreDesc_perm valid).length_eq]
  have htake : r.take K = attachRanks 1 (sortByScoreDesc valid) :=
    List.take_left' hlen
  have hdrop : r.drop K = (as.filter (fun a => a.veto)).map (fun a => ⟨a, Rank.veto⟩) :=
    List.drop_left' hlen
  refine ⟨hdrop, ?_, ?_, ?_, ?_⟩
  · rw [htake, attachRanks_map_horse]
    exact sortByScoreDesc_perm valid
  · rw [htake, attachRanks_map_rank, (sortByScoreDesc_perm valid).length_eq]
  · rw [htake, attachRanks_map_horse]
    exact sortByScoreDesc_pairwise valid
  · intro s
    rw [htake, attachRanks_map_horse]
    exact filter_sortByScoreDesc valid s

/-- C4: with exactly three horses ranked below the VETO sentinel and none of
them dark-horse flagged, `generate_trio_picks` produces exactly the single
axis-challenger-challenger combination, an empty partner pool (the returned
partner list is just the two challengers) and no dark-horse rows. -/
theorem generate_trio_picks_exactly_three (m : List (String × String))
    (ranked : List RankedHorse) (h1 h2 h3 : RankedHorse)
    (hv : ranked.filter (fun h => decide (h.rank ≠ Rank.veto)) = [h1, h2, h3])
    (hd1 : trioDarkReasons h1 = []) (hd2 : trioDarkReasons h2 = [])
    (hd3 : trioDarkReasons h3 = []) :
    (generateTrioPicks m ranked).combinations =
        [comboString [getHrNo m h1, getHrNo m h2, getHrNo m h3]] ∧
      (generateTrioPicks m ranked).num_bets = 1 ∧
      (generateTrioPicks m ranked).partners = [getHrNo m h2, getHrNo m h3] ∧
      (generateTrioPicks m ranked).dark_horses = [] := by
  unfold generateTrioPicks
  rw [hv]
  simp [List.foldl, hd1, hd2, hd3, addUnique, sortLe, insertLe]

/-- Helper: the ranked dictionary has no `is_dark_horse` key — `analyze_horse`
writes `dark_horse` and the ranker only adds `rank` — so the defaulted lookup
is always false. -/
theorem rankedDict_is_dark_lookup (h : RankedHorse) :
    dictGetBool (rankedDict h) "is_dark_horse" false = false := by
  cases h with
  | mk horse rank => cases rank <;> rfl

/-- Helper: a nodup list filtered to the elements outside its own n-prefix is
its n-suffix. -/
theorem filter_not_mem_take {α : Type} [DecidableEq α] (l : List α) (n : Nat)
    (h : l.Nodup) : l.filter (fun x => decide (x ∉ l.take n)) = l.drop n := by
  have hsplit : l.take n ++ l.drop n = l := List.take_append_drop n l
  have hnod : (l.take n ++ l.drop n).Nodup := by rw [hsplit]; exact h
  have hdisj : (l.take n).Disjoint (l.drop n) := (List.nodup_append.mp hnod).2.2
  have h1 : (l.take n).filter (fun x => decide (x ∉ l.take n)) = [] := by
    rw [List.filter_eq_nil_iff]
    intro a ha
    simp [ha]
  have h2 : (l.drop n).filter (fun x => decide (x ∉ l.take n)) = l.drop n := by
    rw [List.filter_eq_self]
    intro a ha
    simpa using fun hmem => hdisj hmem ha
  have hmain : (l.take n ++ l.drop n).filter (fun x => decide (x ∉ l.take n)) = l.drop n := by
    rw [List.filter_append, h1, h2, List.nil_append]
  rw [hsplit] at hmain
  exact hmain

/-- C9: over analyses produced by `analyze_horse` (whose output dictionary has
a `dark_horse` key but no `is_dark_horse` key) ranked by `rank_horses`, the
dark-horse candidate filter of the backtester strategy is always empty, so the
selected horses are exactly the top of the ranking: axis = rank 1, challengers
= ranks 2-3, and the dark-horse slots are refilled with ranks 4-6. -/
theorem backtester_selects_top_six (as : List HorseAnalysis)
    (hne : rankHorses as ≠ [])
    (hnames : ((rankHorses as).map (fun h => h.horse.horse_name)).Nodup) :
    ((rankHorses as).drop 1).filter
        (fun h => dictGetBool (rankedDict h) "is_dark_horse" false) = [] ∧
    ∃ sel, selectStrategy (rankHorses as) = some sel ∧
      sel.axis :: (sel.challengers ++ sel.dark_horses) = (rankHorses as).take 6 ∧
      sel.challengers = ((rankHorses as).drop 1).take 2 ∧
      sel.dark_horses = ((rankHorses as).drop 3).take 3 := by
  have hfilter : ∀ l : List RankedHorse,
      l.filter (fun h => dictGetBool (rankedDict h) "is_dark_horse" false) = [] := by
    intro l
    rw [List.filter_eq_nil_iff]
    intro a _
    simp [rankedDict_is_dark_lookup]
  rcases hr : rankHorses as with _ | ⟨axis, others⟩
  · exact absurd hr hne
  · have hnod : others.Nodup := by
      rw [hr] at hnames
      exact ((List.nodup_cons.mp (hnames.of_map _)).2)
    refine ⟨by simpa using hfilter others, ?_⟩
    refine ⟨⟨axis, others.take 2, (others.drop 2).take 3⟩, ?_, ?_, by simp, ?_⟩
    · simp only [selectStrategy]
      rw [hfilter others]
      simp only [List.take_nil, List.length_nil]
      have hrem : others.filter (fun h => decide (h ∉ ([] : List RankedHorse))) = others := by
        rw [List.filter_eq_self]
        intro a _
        simp
      rw [hrem]
      rw [if_pos (by omega)]
      rw [filter_not_mem_take others 2 hnod]
      simp
    · simp [List.take_succ_cons, ← List.take_add]
    · simp

/-- C5: with a well-formed result table (three distinct horses on the first
three ranks), the recorded quinella hit flag holds exactly when the axis horse
is one of the actual first two finishers and the other of the first two is
among the six selected picks; the trio hit flag holds exactly when the axis is
among the actual top three and the other two top-three finishers are both
among the picks. -/
theorem backtest_hit_flags_iff (axisName : String) (picks : List String)
    (ranks : List (String × ℤ)) (a b c : String)
    (h1 : findRankName ranks 1 = some a) (h2 : findRankName ranks 2 = some b)
    (h3 : findRankName ranks 3 = some c)
    (hab : a ≠ b) (hac : a ≠ c) (hbc : b ≠ c) :
    ((quiTrioHits axisName picks ranks).1 = true ↔
      ((axisName = a ∧ b ∈ picks) ∨ (axisName = b ∧ a ∈ picks))) ∧
    ((quiTrioHits axisName picks ranks).2 = true ↔
      ((axisName = a ∧ b ∈ picks ∧ c ∈ picks) ∨
       (axisName = b ∧ a ∈ picks ∧ c ∈ picks) ∨
       (axisName = c ∧ a ∈ picks ∧ b ∈ picks))) := by
  have hba : ¬ b = a := fun h => hab h.symm
  have hca : ¬ c = a := fun h => hac h.symm
  have hcb : ¬ c = b := fun h => hbc h.symm
  unfold quiTrioHits
  rw [h1, h2, h3]
  by_cases hxa : axisName = a <;> by_cases hxb : axisName = b <;>
    by_cases hxc : axisName = c <;>
    simp_all [List.contains, List.filter_cons] <;>
    try (split_ifs <;> simp_all)

/-- Helper: on a nonempty history with a sectional mean available,
`calc_speed_score` takes the sectional branch, whose score is the sum of the
two linear transforms, the vector bonus and the two independent consistency
bonuses, clamped above at 100 and rounded. -/
theorem calcSpeedScore_sectional_eq (cfg : AnalyzerConfig) (hist : List RaceEntry)
    (hne : hist ≠ [])
    (hsec : ¬ (listMean (s1fValsOf cfg hist) = 0 ∧ listMean (g1fValsOf cfg hist) = 0)) :
    (calcSpeedScore cfg hist).speed_score =
      round1 (min
        ((if 0 < listMean (s1fValsOf cfg hist) then
            max 0 ((14 - listMean (s1fValsOf cfg hist)) / 14 * 50) else 0) +
         (if 0 < listMean (g1fValsOf cfg hist) then
            max 0 ((14 - listMean (g1fValsOf cfg hist)) / 14 * 50) else 0) +
         (if g1fVectorOf (listMean (s1fValsOf cfg hist)) (listMean (g1fValsOf cfg hist)) =
              "Strong" then (15 : ℚ)
          else if g1fVectorOf (listMean (s1fValsOf cfg hist))
              (listMean (g1fValsOf cfg hist)) = "Maintaining" then 8 else 0) +
         (if listVar (s1fValsOf cfg hist) < 9 / 100 ∧ s1fValsOf cfg hist ≠ [] then (5 : ℚ)
          else 0) +
         (if listVar (g1fValsOf cfg hist) < 9 / 100 ∧ g1fValsOf cfg hist ≠ [] then (5 : ℚ)
          else 0))
        100) := by
  simp only [calcSpeedScore]
  rw [if_neg hne, if_neg hsec]

/-- Helper: the sectional-sample values of the counterexample history. -/
theorem histC6_s1fVals : s1fValsOf defaultConfig histC6 = [12, 12] := by
  norm_num [s1fValsOf, histC6, defaultConfig]

/-- Helper: the late-sample values of the counterexample history. -/
theorem histC6_g1fVals : g1fValsOf defaultConfig histC6 = [12, 13] := by
  norm_num [g1fValsOf, histC6, defaultConfig]

/-- C6 counterexample: on `histC6` the code awards the early-sectional
consistency bonus alone (score 25.5 = 50/7 + 75/14 + 8 + 5 rounded), while the
claimed single both-or-nothing bonus yields 20.5 — the claim as stated is
false of the code. -/
theorem speed_score_consistency_counterexample :
    (calcSpeedScore defaultConfig histC6).speed_score = 25.5 ∧
    speedScoreSingleBonusClaim defaultConfig histC6 = 20.5 ∧
    (calcSpeedScore defaultConfig histC6).speed_score ≠
      speedScoreSingleBonusClaim defaultConfig histC6 := by
  have h1 := histC6_s1fVals
  have h2 := histC6_g1fVals
  have hm1 : listMean [(12 : ℚ), 12] = 12 := by norm_num [listMean, List.cons_ne_nil]
  have hm2 : listMean [(12 : ℚ), 13] = 25 / 2 := by norm_num [listMean, List.cons_ne_nil]
  have hv1 : listVar [(12 : ℚ), 12] = 0 := by
    norm_num [listVar, listMean, List.cons_ne_nil]
  have hv2 : listVar [(12 : ℚ), 13] = 1 / 4 := by
    norm_num [listVar, listMean, List.cons_ne_nil]
  have hvec : g1fVectorOf 12 (25 / 2) = "Maintaining" := by norm_num [g1fVectorOf]
  have hb1 : (if 0 < listMean (s1fValsOf defaultConfig histC6) then
      max 0 ((14 - listMean (s1fValsOf defaultConfig histC6)) / 14 * 50) else 0) = 50 / 7 := by
    rw [h1, hm1]; norm_num [max_def]
  have hb2 : (if 0 < listMean (g1fValsOf defaultConfig histC6) then
      max 0 ((14 - listMean (g1fValsOf defaultConfig histC6)) / 14 * 50) else 0) = 75 / 14 := by
    rw [h2, hm2]; norm_num [max_def]
  have hvb : (if g1fVectorOf (listMean (s1fValsOf defaultConfig histC6))
        (listMean (g1fValsOf defaultConfig histC6)) = "Strong" then (15 : ℚ)
      else if g1fVectorOf (listMean (s1fValsOf defaultConfig histC6))
        (listMean (g1fValsOf defaultConfig histC6)) = "Maintaining" then 8 else 0) = 8 := by
    rw [h1, h2, hm1, hm2, hvec]; simp
  have hc1 : (if listVar (s1fValsOf defaultConfig histC6) < 9 / 100 ∧
      s1fValsOf defaultConfig histC6 ≠ [] then (5 : ℚ) else 0) = 5 := by
    rw [h1, hv1]; norm_num [List.cons_ne_nil]
  have hc2 : (if listVar (g1fValsOf defaultConfig histC6) < 9 / 100 ∧
      g1fValsOf defaultConfig histC6 ≠ [] then (5 : ℚ) else 0) = 0 := by
    rw [h2, hv2]; norm_num [List.cons_ne_nil]
  have hA : (calcSpeedScore defaultConfig histC6).speed_score = 25.5 := by
    rw [calcSpeedScore_sectional_eq defaultConfig histC6 (by simp [histC6])
      (by rw [h1, h2, hm1]; norm_num), hb1, hb2, hvb, hc1, hc2]
    norm_num [round1, roundHalfEven, round_eq, min_def, Int.fract]
  have hB : speedScoreSingleBonusClaim defaultConfig histC6 = 20.5 := by
    simp only [speedScoreSingleBonusClaim]
    rw [h1, h2, hm1, hm2, hv1, hv2, hvec]
    simp only [show (("Maintaining" : String) = "Strong") = False from by simp,
      show (("Maintaining" : String) = "Maintaining") = True from by simp, if_false, if_true]
    norm_num [round1, roundHalfEven, round_eq, min_def, max_def, Int.fract]
  exact ⟨hA, hB, by rw [hA, hB]; norm_num⟩

/-- C6 amended: when a sectional mean is available, the speed score is the sum
of the two linear sectional transforms, the endurance-vector bonus (+15
Strong, +8 Maintaining, 0 otherwise) and TWO independent consistency bonuses
of +5 each — one when the early standard deviation is below 0.3 (with early
samples present) and one when the late standard deviation is below 0.3 (with
late samples present) — clamped above at 100 and rounded to one decimal. -/
theorem calc_speed_score_sectional_formula (cfg : AnalyzerConfig) (hist : List RaceEntry)
    (hne : hist ≠ [])
    (hsec : ¬ (listMean (s1fValsOf cfg hist) = 0 ∧ listMean (g1fValsOf cfg hist) = 0)) :
    (calcSpeedScore cfg hist).speed_score =
      round1 (min
        ((if 0 < listMean (s1fValsOf cfg hist) then
            max 0 ((14 - listMean (s1fValsOf cfg hist)) / 14 * 50) else 0) +
         (if 0 < listMean (g1fValsOf cfg hist) then
            max 0 ((14 - listMean (g1fValsOf cfg hist)) / 14 * 50) else 0) +
         (if g1fVectorOf (listMean (s1fValsOf cfg hist)) (listMean (g1fValsOf cfg hist)) =
              "Strong" then (15 : ℚ)
          else if g1fVectorOf (listMean (s1fValsOf cfg hist))
              (listMean (g1fValsOf cfg hist)) = "Maintaining" then 8 else 0) +
         (if listVar (s1fValsOf cfg hist) < 9 / 100 ∧ s1fValsOf cfg hist ≠ [] then (5 : ℚ)
          else 0) +
         (if listVar (g1fValsOf cfg hist) < 9 / 100 ∧ g1fValsOf cfg hist ≠ [] then (5 : ℚ)
          else 0))
        100) := by
  exact calcSpeedScore_sectional_eq cfg hist hne hsec

/-- C3 witness at a concrete input: threshold 5, current weight 470, empty
history, pre-parsed delta -10. -/
theorem check_weight_veto_threshold_iff_witness :
    0 < defaultConfig.weight_threshold ∧
    (((checkWeightVeto defaultConfig 470 [] (-10)).veto = true ↔
       defaultConfig.weight_threshold ≤ |(checkWeightVeto defaultConfig 470 [] (-10)).diff|) ∧
     ((-10 : ℚ) = 0 → (∀ r ∈ ([] : List RaceEntry), ¬ (0 < r.weight)) →
       (checkWeightVeto defaultConfig 470 [] (-10)).veto = false ∧
       (checkWeightVeto defaultConfig 470 [] (-10)).diff = 0 ∧
       ((checkWeightVeto defaultConfig 470 [] (-10)).note = "데이터 없음" ∨
        (checkWeightVeto defaultConfig 470 [] (-10)).note = "과거 체중 데이터 없음"))) :=
  ⟨by norm_num [defaultConfig],
   check_weight_veto_threshold_iff defaultConfig 470 (-10) [] (by norm_num [defaultConfig])⟩

/-- C7 witness: a report that contains both the penalty keyword 경고 and the
interference keyword 진로 is dropped whole. -/
theorem interference_excludes_penalty_report_witness :
    penaltyHit "경고 및 진로 방해" = true ∧
    calcInterferenceBonus
        ([] ++ ({ date := "20250111", report := "경고 및 진로 방해" } : StewardReport) :: []) [] =
      calcInterferenceBonus ([] ++ []) [] :=
  ⟨by decide,
   interference_excludes_penalty_report [] [] { date := "20250111", report := "경고 및 진로 방해" }
     [] (by decide)⟩

/-- C8 witness: the empty ranking yields the insufficient result. -/
theorem generate_trio_picks_insufficient_witness :
    (([] : List RankedHorse).filter (fun h => decide (h.rank ≠ Rank.veto))).length < 3 ∧
    generateTrioPicks [] [] =
      { axis := [], partners := [], combinations := [], num_bets := 0, dark_horses := [],
        summary := "출전마 부족" } :=
  ⟨by simp, generate_trio_picks_insufficient [] [] (by simp)⟩

/-- C4 witness: three non-vetoed ranked horses, no dark-horse flags, no
entries table. -/
theorem generate_trio_picks_exactly_three_witness :
    (threeRanked.filter (fun h => decide (h.rank ≠ Rank.veto)) =
        [⟨mkHA "A" 30 false, Rank.pos 1⟩, ⟨mkHA "B" 20 false, Rank.pos 2⟩,
         ⟨mkHA "C" 10 false, Rank.pos 3⟩] ∧
      trioDarkReasons ⟨mkHA "A" 30 false, Rank.pos 1⟩ = [] ∧
      trioDarkReasons ⟨mkHA "B" 20 false, Rank.pos 2⟩ = [] ∧
      trioDarkReasons ⟨mkHA "C" 10 false, Rank.pos 3⟩ = []) ∧
    ((generateTrioPicks [] threeRanked).combinations =
        [comboString [getHrNo [] ⟨mkHA "A" 30 false, Rank.pos 1⟩,
          getHrNo [] ⟨mkHA "B" 20 false, Rank.pos 2⟩,
          getHrNo [] ⟨mkHA "C" 10 false, Rank.pos 3⟩]] ∧
      (generateTrioPicks [] threeRanked).num_bets = 1 ∧
      (generateTrioPicks [] threeRanked).partners =
        [getHrNo [] ⟨mkHA "B" 20 false, Rank.pos 2⟩,
         getHrNo [] ⟨mkHA "C" 10 false, Rank.pos 3⟩] ∧
      (generateTrioPicks [] threeRanked).dark_horses = []) :=
  ⟨⟨by decide, by decide, by decide, by decide⟩,
   generate_trio_picks_exactly_three [] threeRanked _ _ _ (by decide) (by decide) (by decide)
     (by decide)⟩

/-- C5 witness: axis on rank 1, ranks 2 and 3 among the picks. -/
theorem backtest_hit_flags_iff_witness :
    (findRankName [("X", 1), ("Y", 2), ("Z", 3)] 1 = some "X" ∧
      findRankName [("X", 1), ("Y", 2), ("Z", 3)] 2 = some "Y" ∧
      findRankName [("X", 1), ("Y", 2), ("Z", 3)] 3 = some "Z" ∧
      ("X" : String) ≠ "Y" ∧ ("X" : String) ≠ "Z" ∧ ("Y" : String) ≠ "Z") ∧
    (((quiTrioHits "X" ["X", "Y", "Z", "D", "E", "F"] [("X", 1), ("Y", 2), ("Z", 3)]).1 =
        true ↔
      ((("X" : String) = "X" ∧ "Y" ∈ ["X", "Y", "Z", "D", "E", "F"]) ∨
       (("X" : String) = "Y" ∧ "X" ∈ ["X", "Y", "Z", "D", "E", "F"]))) ∧
     ((quiTrioHits "X" ["X", "Y", "Z", "D", "E", "F"] [("X", 1), ("Y", 2), ("Z", 3)]).2 =
        true ↔
      ((("X" : String) = "X" ∧ "Y" ∈ ["X", "Y", "Z", "D", "E", "F"] ∧
          "Z" ∈ ["X", "Y", "Z", "D", "E", "F"]) ∨
       (("X" : String) = "Y" ∧ "X" ∈ ["X", "Y", "Z", "D", "E", "F"] ∧
          "Z" ∈ ["X", "Y", "Z", "D", "E", "F"]) ∨
       (("X" : String) = "Z" ∧ "X" ∈ ["X", "Y", "Z", "D", "E", "F"] ∧
          "Y" ∈ ["X", "Y", "Z", "D", "E", "F"])))) :=
  ⟨⟨by decide, by decide, by decide, by decide, by decide, by decide⟩,
   backtest_hit_flags_iff "X" ["X", "Y", "Z", "D", "E", "F"] [("X", 1), ("Y", 2), ("Z", 3)]
     "X" "Y" "Z" (by decide) (by decide) (by decide) (by decide) (by decide) (by decide)⟩

/-- C6 (amended) witness: the sectional-branch formula evaluated on the
two-race history. -/
theorem calc_speed_score_sectional_formula_witness :
    (histC6 ≠ [] ∧
      ¬ (listMean (s1fValsOf defaultConfig histC6) = 0 ∧
          listMean (g1fValsOf defaultConfig histC6) = 0)) ∧
    (calcSpeedScore defaultConfig histC6).speed_score =
      round1 (min
        ((if 0 < listMean (s1fValsOf defaultConfig histC6) then
            max 0 ((14 - listMean (s1fValsOf defaultConfig histC6)) / 14 * 50) else 0) +
         (if 0 < listMean (g1fValsOf defaultConfig histC6) then
            max 0 ((14 - listMean (g1fValsOf defaultConfig histC6)) / 14 * 50) else 0) +
         (if g1fVectorOf (listMean (s1fValsOf defaultConfig histC6))
              (listMean (g1fValsOf defaultConfig histC6)) = "Strong" then (15 : ℚ)
          else if g1fVectorOf (listMean (s1fValsOf defaultConfig histC6))
              (listMean (g1fValsOf defaultConfig histC6)) = "Maintaining" then 8 else 0) +
         (if listVar (s1fValsOf defaultConfig histC6) < 9 / 100 ∧
            s1fValsOf defaultConfig histC6 ≠ [] then (5 : ℚ) else 0) +
         (if listVar (g1fValsOf defaultConfig histC6) < 9 / 100 ∧
            g1fValsOf defaultConfig histC6 ≠ [] then (5 : ℚ) else 0))
        100) :=
  ⟨⟨by decide, by rw [histC6_s1fVals]; norm_num [listMean, List.cons_ne_nil]⟩,
   calc_speed_score_sectional_formula defaultConfig histC6 (by decide)
     (by rw [histC6_s1fVals]; norm_num [listMean, List.cons_ne_nil])⟩

/-- C9 witness: six distinct analyses ranked and fed to the strategy. -/
theorem backtester_selects_top_six_witness :
    (rankHorses sixAnalyses ≠ [] ∧
      ((rankHorses sixAnalyses).map (fun h => h.horse.horse_name)).Nodup) ∧
    (((rankHorses sixAnalyses).drop 1).filter
        (fun h => dictGetBool (rankedDict h) "is_dark_horse" false) = [] ∧
      ∃ sel, selectStrategy (rankHorses sixAnalyses) = some sel ∧
        sel.axis :: (sel.challengers ++ sel.dark_horses) = (rankHorses sixAnalyses).take 6 ∧
        sel.challengers = ((rankHorses sixAnalyses).drop 1).take 2 ∧
        sel.dark_horses = ((rankHorses sixAnalyses).drop 3).take 3) :=
  ⟨⟨by decide, by decide⟩,
   backtester_selects_top_six sixAnalyses (by decide) (by decide)⟩
